import Mathlib

/-!
Verification development for the recordingmgmt repository: a Zoom recording
explorer consisting of a Cloudflare-worker style backend (meeting/phone
recording aggregation) and a React front end (pagination hooks, selection,
bulk delete).  The definitions below are a shallow embedding of the
JavaScript/TypeScript source: JS strings become Lean String, JS
null/undefined becomes Option, network responses become explicit upstream
functions, and the cooperative single-threaded loops become structurally
recursive Lean functions.
-/

namespace RecMgmt

/-! ### JavaScript string primitives used by the source -/

/-- Embedding of the JS String.prototype.toLowerCase used by the handler
(ASCII case folding, which is what the filter strings in this code base
use), written over the character list so that it evaluates inside the
kernel. -/
def jsToLower (s : String) : String := String.mk (s.data.map Char.toLower)

/-- Boolean list-prefix test used to implement the substring check. -/
def isPrefixB : List Char → List Char → Bool
  | [], _ => true
  | _ :: _, [] => false
  | a :: as, b :: bs => a = b && isPrefixB as bs

/-- Boolean contiguous-sublist test: the first list occurs somewhere inside
the second. -/
def isInfixB (needle : List Char) : List Char → Bool
  | [] => isPrefixB needle []
  | c :: t => isPrefixB needle (c :: t) || isInfixB needle t

/-- Embedding of JS String.prototype.includes: the needle occurs as a
contiguous substring of the haystack. -/
def jsIncludes (hay needle : String) : Bool := isInfixB needle.toList hay.toList

/-- JS truthiness of an optional string (null/undefined and the empty string
are falsy). -/
def strTruthy : Option String → Bool
  | none => false
  | some s => s ≠ ""

/-! ### Data model of the meetings backend (src/unnamed/part_000)

Upstream users and per-user recording responses. Fields that no code path
of the verified handler consults are omitted from the embedding. -/

structure User where
  id : String
  email : String
deriving DecidableEq, Repr

/-- A recording file as it appears inside an upstream meeting object. -/
structure RawFile where
  file_type : Option String
  file_extension : Option String
deriving DecidableEq, Repr

/-- An upstream meeting object as parsed from the per-user recordings
endpoint body (fields the handler reads). -/
structure UMeeting where
  topic : Option String
  host_id : Option String
  uuid : Option String
  start_time : Option String
  duration : Option Nat
  recording_files : Option (List RawFile)
deriving DecidableEq, Repr

/-- The normalized meeting record pushed by the worker (lines 248-284 of the
backend): core meeting fields, the owning user email, and derived
primary-file fields. -/
structure NormMeeting where
  topic : Option String
  host_id : Option String
  uuid : Option String
  start_time : Option String
  duration : Option Nat
  owner_email : Option String
  primary_file_type : Option String
  primary_file_extension : Option String
  recording_files : List RawFile
deriving DecidableEq, Repr

/-- JS `x || null` on an optional string: the empty string collapses to null. -/
def orNull : Option String → Option String
  | none => none
  | some s => if s = "" then none else some s

/-- Normalization of one upstream meeting performed inside the worker loop:
files default to [], `primary` is the first file, and the owning user email
is attached. -/
def normalizeMeeting (u : User) (m : UMeeting) : NormMeeting :=
  let files := m.recording_files.getD []
  let primary := files.head?
  { topic := m.topic
    host_id := m.host_id
    uuid := m.uuid
    start_time := m.start_time
    duration := m.duration
    owner_email := some u.email
    primary_file_type := orNull (primary.bind (·.file_type))
    primary_file_extension := orNull (primary.bind (·.file_extension))
    recording_files := files }

/-! ### Search filters (handler lines 324-348)

The handler lower-cases the three query parameters at parse time and then
applies up to three narrowing List.filter passes, each guarded by JS string
truthiness of the corresponding parameter. -/

/-- Predicate of the owner_email filter pass: case-insensitive substring. -/
def ownerPred (ownerFilter : String) (m : NormMeeting) : Bool :=
  jsIncludes (jsToLower (m.owner_email.getD "")) ownerFilter

/-- Predicate of the topic filter pass: case-insensitive substring. -/
def topicPred (topicFilter : String) (m : NormMeeting) : Bool :=
  jsIncludes (jsToLower (m.topic.getD "")) topicFilter

/-- The free-text haystack: topic, owner email and host id joined with a
single space (lines 340-345). -/
def qBag (m : NormMeeting) : String :=
  String.intercalate " " [m.topic.getD "", m.owner_email.getD "", m.host_id.getD ""]

/-- Predicate of the free-text pass: the (already lower-cased) query occurs
in the lower-cased haystack. -/
def qPred (q : String) (m : NormMeeting) : Bool :=
  jsIncludes (jsToLower (qBag m)) q

/-- The filter chain exactly as written in the handler: each pass runs only
when its parameter is a truthy (non-empty) string, narrowing the previous
result. -/
def applyFilters (ownerFilter topicFilter q : String) (ms : List NormMeeting) :
    List NormMeeting :=
  let f1 := if ownerFilter ≠ "" then ms.filter (ownerPred ownerFilter) else ms
  let f2 := if topicFilter ≠ "" then f1.filter (topicPred topicFilter) else f1
  if q ≠ "" then f2.filter (qPred q) else f2

/-- Names for the three optional filter passes, used to state
order-independence of the chain. -/
inductive FilterKind where
  | owner
  | topic
  | qtext
deriving DecidableEq, Repr

/-- One pass of the chain, by name. -/
def stepFilter (ownerFilter topicFilter q : String) (k : FilterKind)
    (ms : List NormMeeting) : List NormMeeting :=
  match k with
  | .owner => if ownerFilter ≠ "" then ms.filter (ownerPred ownerFilter) else ms
  | .topic => if topicFilter ≠ "" then ms.filter (topicPred topicFilter) else ms
  | .qtext => if q ≠ "" then ms.filter (qPred q) else ms

/-- The chain run in an arbitrary order of passes. -/
def applyFiltersIn (ownerFilter topicFilter q : String) (order : List FilterKind)
    (ms : List NormMeeting) : List NormMeeting :=
  order.foldl (fun acc k => stepFilter ownerFilter topicFilter q k acc) ms

/-- The guarded predicate of one pass: vacuously true when the pass is
switched off by an empty parameter. -/
def condPred (ownerFilter topicFilter q : String) (k : FilterKind)
    (m : NormMeeting) : Bool :=
  match k with
  | .owner => if ownerFilter ≠ "" then ownerPred ownerFilter m else true
  | .topic => if topicFilter ≠ "" then topicPred topicFilter m else true
  | .qtext => if q ≠ "" then qPred q m else true

theorem stepFilter_eq_filter (of tf q : String) (k : FilterKind)
    (ms : List NormMeeting) :
    stepFilter of tf q k ms = ms.filter (condPred of tf q k) := by
  cases k <;> simp only [stepFilter] <;> split <;> rename_i h <;>
    (first
      | (apply List.filter_congr; intro m _; simp [condPred, h])
      | (conv_lhs => rw [← List.filter_true ms]
         apply List.filter_congr; intro m _; simp [condPred, h]))

theorem applyFiltersIn_eq_filter_all (of tf q : String) (order : List FilterKind)
    (ms : List NormMeeting) :
    applyFiltersIn of tf q order ms
      = ms.filter (fun m => order.all (fun k => condPred of tf q k m)) := by
  induction order generalizing ms with
  | nil => simp [applyFiltersIn]
  | cons k rest ih =>
      have h1 : applyFiltersIn of tf q (k :: rest) ms
          = applyFiltersIn of tf q rest (stepFilter of tf q k ms) := rfl
      rw [h1, ih, stepFilter_eq_filter, List.filter_filter]
      apply List.filter_congr
      intro m _
      simp [List.all_cons, Bool.and_comm]

theorem perm_all_eq {α : Type} {l₁ l₂ : List α} (h : l₁.Perm l₂) (f : α → Bool) :
    l₁.all f = l₂.all f := by
  induction h with
  | nil => rfl
  | cons x _ ih => simp [List.all_cons, ih]
  | swap x y l =>
      simp only [List.all_cons]
      rw [← Bool.and_assoc, Bool.and_comm (f y) (f x), Bool.and_assoc]
  | trans _ _ ih₁ ih₂ => rw [ih₁, ih₂]

theorem applyFilters_eq_canonical (of tf q : String) (ms : List NormMeeting) :
    applyFilters of tf q ms
      = applyFiltersIn of tf q [.owner, .topic, .qtext] ms := rfl

/-! ### Per-user fan-out worker (handler lines 196-298)

Each enumerated user gets one fetch of its recordings endpoint.  The
response of that fetch is modelled as: a thrown network error, or a
response with a status, a raw body text, and the result of JSON.parse on
that text (none when the body is not JSON).  The five concurrent workers
of the source share an index counter over the user array; since the
runtime is single threaded between awaits, every index is claimed by
exactly one worker, so the batch as a whole processes each user exactly
once and the collected lists are (up to interleaving order) those of the
sequential recursion modelled here.  All claims below are about counts and
per-user multiplicities, which are invariant under that interleaving. -/

/-- The parsed body of a per-user recordings response: the meetings field
(absent or not an array collapses to none, mirroring the Array.isArray
check). -/
structure RecordingsBody where
  meetings : Option (List UMeeting)
deriving DecidableEq, Repr

/-- Outcome of the fetch issued for one user. -/
inductive UserFetchResult where
  | thrown (msg : String)
  | resp (status : Nat) (text : String) (parsed : Option RecordingsBody)
deriving DecidableEq, Repr

/-- Error entry pushed into the shared errors array; the three push sites
produce three field shapes, all carrying the user id and email. -/
structure ErrEntry where
  userId : String
  userEmail : String
  status : Option Nat
  message : Option String
  raw : Option String
  error : Option String
deriving DecidableEq, Repr

/-- Entry pushed into the per-user success summary. -/
structure SummaryEntry where
  userId : String
  userEmail : String
  meetingCount : Nat
deriving DecidableEq, Repr

/-- The single recorded outcome of one work unit. -/
inductive Outcome where
  | err (e : ErrEntry)
  | ok (s : SummaryEntry) (recs : List NormMeeting)
deriving Repr

/-- JS Response.ok: status in the 2xx range. -/
def statusOk (status : Nat) : Bool := 200 ≤ status && status < 300

/-- The body of the worker loop for one user: exactly one of an error entry
(fetch threw, non-2xx status, or non-JSON body) or a summary entry plus the
normalized meetings of that user. -/
def processUser (u : User) (r : UserFetchResult) : Outcome :=
  match r with
  | .thrown msg => .err ⟨u.id, u.email, none, none, none, some msg⟩
  | .resp status text parsed =>
    if statusOk status then
      match parsed with
      | none => .err ⟨u.id, u.email, some status,
          some "Non-JSON response from recordings endpoint", some text, none⟩
      | some body =>
          let userMeetings := body.meetings.getD []
          .ok ⟨u.id, u.email, userMeetings.length⟩
            (userMeetings.map (normalizeMeeting u))
    else .err ⟨u.id, u.email, some status, some text, none, none⟩

/-- The three shared arrays filled by the workers. -/
structure WorkState where
  meetings : List NormMeeting
  errors : List ErrEntry
  summary : List SummaryEntry
deriving DecidableEq, Repr

/-- The whole fan-out batch: every user is processed exactly once and its
single outcome is appended to the corresponding shared array. -/
def runWorkers (users : List User) (f : User → UserFetchResult) : WorkState :=
  match users with
  | [] => ⟨[], [], []⟩
  | u :: rest =>
    let tail := runWorkers rest f
    match processUser u (f u) with
    | .err e => ⟨tail.meetings, e :: tail.errors, tail.summary⟩
    | .ok s recs => ⟨recs ++ tail.meetings, tail.errors, s :: tail.summary⟩

/-- The error entry a given user contributes, when its fetch fails. -/
def errEntryOf (u : User) (r : UserFetchResult) : Option ErrEntry :=
  match processUser u r with
  | .err e => some e
  | .ok _ _ => none

/-- The summary entry a given user contributes, when its fetch succeeds. -/
def summaryEntryOf (u : User) (r : UserFetchResult) : Option SummaryEntry :=
  match processUser u r with
  | .err _ => none
  | .ok s _ => some s

/-- The normalized meetings a given user contributes (empty on failure). -/
def okRecsOf (f : User → UserFetchResult) (u : User) : List NormMeeting :=
  match processUser u (f u) with
  | .err _ => []
  | .ok _ recs => recs

/-- Whether the fetch of one user counts as a success in the worker. -/
def userSucceeds (r : UserFetchResult) : Bool :=
  match r with
  | .thrown _ => false
  | .resp status _ parsed => statusOk status && parsed.isSome

theorem errEntryOf_isSome (u : User) (r : UserFetchResult) :
    (errEntryOf u r).isSome = !userSucceeds r := by
  cases r with
  | thrown msg => rfl
  | resp status text parsed =>
      simp only [errEntryOf, processUser, userSucceeds]
      cases h : statusOk status <;> cases parsed <;> simp

theorem errEntryOf_fields (u : User) (r : UserFetchResult) (e : ErrEntry)
    (h : errEntryOf u r = some e) : e.userId = u.id ∧ e.userEmail = u.email := by
  cases r with
  | thrown msg =>
      simp only [errEntryOf, processUser] at h
      cases h; exact ⟨rfl, rfl⟩
  | resp status text parsed =>
      simp only [errEntryOf, processUser] at h
      cases hst : statusOk status <;> simp [hst] at h
      · cases h; exact ⟨rfl, rfl⟩
      · cases parsed <;> simp at h
        cases h; exact ⟨rfl, rfl⟩

theorem runWorkers_errors (users : List User) (f : User → UserFetchResult) :
    (runWorkers users f).errors = users.filterMap (fun u => errEntryOf u (f u)) := by
  induction users with
  | nil => rfl
  | cons u rest ih =>
      simp only [runWorkers, List.filterMap_cons]
      cases h : processUser u (f u) <;>
        simp [errEntryOf, h, ih]

theorem runWorkers_summary (users : List User) (f : User → UserFetchResult) :
    (runWorkers users f).summary
      = users.filterMap (fun u => summaryEntryOf u (f u)) := by
  induction users with
  | nil => rfl
  | cons u rest ih =>
      simp only [runWorkers, List.filterMap_cons]
      cases h : processUser u (f u) <;>
        simp [summaryEntryOf, h, ih]

theorem runWorkers_meetings (users : List User) (f : User → UserFetchResult) :
    (runWorkers users f).meetings = (users.map (okRecsOf f)).flatten := by
  induction users with
  | nil => rfl
  | cons u rest ih =>
      simp only [runWorkers, List.map_cons, List.flatten_cons]
      cases h : processUser u (f u) <;>
        simp [okRecsOf, h, ih]

/-! ### Active-user enumeration (handler lines 102-136)

A cursor loop over the users endpoint with no page cap: it stops only on a
non-2xx response (which aborts the whole request with that status) or an
empty next_page_token.  The loop is modelled with explicit fuel: a none
result means the loop was still running after the given number of pages. -/

/-- One page of the users listing. -/
structure UsersPage where
  status : Nat
  text : String
  usersF : Option (List User)
  next_page_token : Option String
deriving DecidableEq, Repr

/-- Result of the enumeration: an aborting error response, or the
accumulated user list. -/
inductive UsersEnumResult where
  | failResp (status : Nat) (message : String)
  | ok (users : List User)
deriving DecidableEq, Repr

/-- The do-while loop over users pages.  The page index names the request
order (first request has index 0). -/
def enumUsersGo (up : Nat → UsersPage) : Nat → Nat → List User → Option UsersEnumResult
  | 0, _, _ => none
  | fuel + 1, pageIdx, acc =>
    let page := up pageIdx
    if statusOk page.status then
      let acc' := acc ++ page.usersF.getD []
      let tok := page.next_page_token.getD ""
      if tok ≠ "" then enumUsersGo up fuel (pageIdx + 1) acc'
      else some (.ok acc')
    else some (.failResp page.status ("Failed to list users: " ++ page.text))

/-- Entry point of the enumeration loop. -/
def enumUsers (up : Nat → UsersPage) (fuel : Nat) : Option UsersEnumResult :=
  enumUsersGo up fuel 0 []

/-! ### The meetings search handler (handleGetMeetingRecordings) -/

/-- Query parameters of the handler (the names from and to are reserved in
Lean, hence the P suffix). -/
structure MeetingsParams where
  fromP : String
  toP : String
  debug : String
  owner_email : String
  topic : String
  q : String
deriving DecidableEq, Repr

/-- The upstream behaviour visible to the handler: the users listing pages
and the per-user recordings fetch. -/
structure MeetingsUpstream where
  usersPage : Nat → UsersPage
  recFetch : User → UserFetchResult

/-- Item of the debug=users view. -/
structure UserSummaryItem where
  id : String
  email : String
deriving DecidableEq, Repr

/-- The response bodies the handler can produce. -/
inductive MeetingsRespBody where
  | errorBody (status : Nat) (message : String)
  | usersDebug (fromP toP : String) (total_users : Nat) (users : List UserSummaryItem)
  | userRecordingsDebug (fromP toP : String) (total_users : Nat)
      (per_user : List SummaryEntry) (errs : Option (List ErrEntry))
  | searchResult (fromP toP next_page_token : String)
      (page_count page_size total_records : Nat)
      (meetings : List NormMeeting) (errs : Option (List ErrEntry))
deriving DecidableEq, Repr

structure HttpResponse where
  status : Nat
  body : MeetingsRespBody
deriving DecidableEq, Repr

/-- Result of a handler run, instrumented with the list of users for which
a per-user recordings fetch was issued. -/
structure HandlerRun where
  response : HttpResponse
  recordingFetchUsers : List User
deriving DecidableEq, Repr

/-- The full handler: lower-case the filter parameters, enumerate active
users (none when the enumeration loop exceeds the given fuel), then serve
the debug views, the empty-organization short circuit, or run the fan-out
batch and the filter chain.  Mirrors handleGetMeetingRecordings of the
backend line by line. -/
def handleGetMeetingRecordings (p : MeetingsParams) (up : MeetingsUpstream)
    (fuel : Nat) : Option HandlerRun :=
  let ownerFilter := jsToLower p.owner_email
  let topicFilter := jsToLower p.topic
  let q := jsToLower p.q
  match enumUsers up.usersPage fuel with
  | none => none
  | some (.failResp status msg) => some ⟨⟨status, .errorBody status msg⟩, []⟩
  | some (.ok users) =>
    if p.debug = "users" then
      some ⟨⟨200, .usersDebug p.fromP p.toP users.length
        (users.map fun u => ⟨u.id, u.email⟩)⟩, []⟩
    else if users.length = 0 then
      some ⟨⟨200, .searchResult p.fromP p.toP "" 0 0 0 [] none⟩, []⟩
    else
      let st := runWorkers users up.recFetch
      if p.debug = "user-recordings" then
        some ⟨⟨200, .userRecordingsDebug p.fromP p.toP users.length st.summary
          (if st.errors.isEmpty then none else some st.errors)⟩, users⟩
      else
        let filtered := applyFilters ownerFilter topicFilter q st.meetings
        let tr := filtered.length
        some ⟨⟨200, .searchResult p.fromP p.toP "" (if tr = 0 then 0 else 1) tr tr
          filtered (if st.errors.isEmpty then none else some st.errors)⟩, users⟩

/-! ### The unified front-end record (src/src/hooks/useRecordings.ts)

Only the discriminating source tag and the identifiers consulted by the
selection key and the delete loop are carried; the remaining display
fields play no role in any claim. -/

inductive RecSource where
  | phone
  | meetings
  | cc
deriving DecidableEq, Repr

structure Recording where
  source : RecSource
  id : Option String
  meetingId : Option String
deriving DecidableEq, Repr

/-! ### Front-end pagination loops (fetchAllPhoneRecordings,
fetchAllContactCenterRecordings)

Both hooks run the same do-while shape: issue a request, append the page
recordings, continue while the next_page_token is truthy and the loop
count is below the cap (20 for phone, 50 for contact center).  fetchJson
throws on a non-2xx response, which aborts the whole fetch; that is the
error case of the upstream function.  The loop is written with a remaining
counter equal to cap - 1 - loops, so the JS guard loops + 1 < cap is
exactly remaining > 0 and the recursion is structural. -/

/-- One upstream page, generic in the raw per-source record type. -/
structure ApiPage (ρ : Type) where
  recordings : Option (List ρ)
  next_page_token : Option String
  fromF : Option String
  toF : Option String
deriving DecidableEq, Repr

/-- What the hook returns: the echoed range and the accumulated records.
Note there is no completeness flag of any kind in this shape. -/
structure FetchResult where
  fromD : String
  toD : String
  recordings : List Recording
deriving DecidableEq, Repr

/-- A pagination run, instrumented with the number of page requests issued
and whether the loop exited at the cap while a continuation token was
still present (information the source computes but never returns). -/
structure PagOutcome where
  requests : Nat
  cappedWithToken : Bool
  result : Except String FetchResult
deriving Repr

instance : DecidableEq (Except String FetchResult) := fun a b =>
  match a, b with
  | .error x, .error y =>
      if h : x = y then isTrue (by rw [h]) else isFalse (by intro hh; cases hh; exact h rfl)
  | .ok x, .ok y =>
      if h : x = y then isTrue (by rw [h]) else isFalse (by intro hh; cases hh; exact h rfl)
  | .error _, .ok _ => isFalse (by intro hh; cases hh)
  | .ok _, .error _ => isFalse (by intro hh; cases hh)

/-- The shared do-while body of both hooks.  The remaining = 0 case is the
final allowed iteration (the JS guard loops + 1 < cap is false there): the
page is still fetched and appended, and the loop then exits whatever the
token says, recording whether a token was still present. -/
def pagGo {ρ : Type} (up : Nat → Except String (ApiPage ρ)) (norm : ρ → Recording)
    (frArg toArg : String) :
    Nat → Nat → List Recording → Option String → Option String → PagOutcome
  | 0, loops, acc, apiFrom, apiTo =>
    match up loops with
    | .error e => ⟨loops + 1, false, .error e⟩
    | .ok page =>
      let recs := (page.recordings.getD []).map norm
      let apiFrom' := some (apiFrom.getD (page.fromF.getD frArg))
      let apiTo' := some (page.toF.getD (apiTo.getD toArg))
      let acc' := acc ++ recs
      ⟨loops + 1, strTruthy page.next_page_token,
        .ok ⟨apiFrom'.getD frArg, apiTo'.getD toArg, acc'⟩⟩
  | r + 1, loops, acc, apiFrom, apiTo =>
    match up loops with
    | .error e => ⟨loops + 1, false, .error e⟩
    | .ok page =>
      let recs := (page.recordings.getD []).map norm
      let apiFrom' := some (apiFrom.getD (page.fromF.getD frArg))
      let apiTo' := some (page.toF.getD (apiTo.getD toArg))
      let acc' := acc ++ recs
      if strTruthy page.next_page_token then
        pagGo up norm frArg toArg r (loops + 1) acc' apiFrom' apiTo'
      else ⟨loops + 1, false, .ok ⟨apiFrom'.getD frArg, apiTo'.getD toArg, acc'⟩⟩

def MAX_PHONE_PAGES : Nat := 20

def MAX_CC_PAGES : Nat := 50

/-- Raw phone recording; the hook spreads it and tags source=phone. -/
structure PhoneRec where
  id : Option String
deriving DecidableEq, Repr

/-- Raw contact-center recording; the hook maps recording_id to id and tags
source=cc. -/
structure CCRec where
  recording_id : String
deriving DecidableEq, Repr

def phoneNorm (r : PhoneRec) : Recording := ⟨.phone, r.id, none⟩

def ccNorm (r : CCRec) : Recording := ⟨.cc, some r.recording_id, none⟩

/-- Instrumented run of fetchAllPhoneRecordings. -/
def fetchAllPhoneRecordingsRun (up : Nat → Except String (ApiPage PhoneRec))
    (frArg toArg : String) : PagOutcome :=
  pagGo up phoneNorm frArg toArg (MAX_PHONE_PAGES - 1) 0 [] none none

/-- The value fetchAllPhoneRecordings actually returns (or the thrown
error). -/
def fetchAllPhoneRecordings (up : Nat → Except String (ApiPage PhoneRec))
    (frArg toArg : String) : Except String FetchResult :=
  (fetchAllPhoneRecordingsRun up frArg toArg).result

/-- Instrumented run of fetchAllContactCenterRecordings. -/
def fetchAllContactCenterRecordingsRun (up : Nat → Except String (ApiPage CCRec))
    (frArg toArg : String) : PagOutcome :=
  pagGo up ccNorm frArg toArg (MAX_CC_PAGES - 1) 0 [] none none

/-- The value fetchAllContactCenterRecordings actually returns. -/
def fetchAllContactCenterRecordings (up : Nat → Except String (ApiPage CCRec))
    (frArg toArg : String) : Except String FetchResult :=
  (fetchAllContactCenterRecordingsRun up frArg toArg).result

theorem pagGo_requests_le {ρ : Type} (up : Nat → Except String (ApiPage ρ))
    (norm : ρ → Recording) (frArg toArg : String) :
    ∀ (remaining loops : Nat) (acc : List Recording) (apiFrom apiTo : Option String),
      (pagGo up norm frArg toArg remaining loops acc apiFrom apiTo).requests
        ≤ loops + 1 + remaining := by
  intro remaining
  induction remaining with
  | zero =>
      intro loops acc apiFrom apiTo
      simp only [pagGo]
      cases up loops with
      | error e => simp
      | ok page => simp
  | succ r ih =>
      intro loops acc apiFrom apiTo
      simp only [pagGo]
      cases up loops with
      | error e => simp only []; omega
      | ok page =>
          cases h : strTruthy page.next_page_token
          · simp only [h, Bool.false_eq_true, if_false]; omega
          · simp only [h, if_true]
            calc (pagGo up norm frArg toArg r (loops + 1) _ _ _).requests
                ≤ (loops + 1) + 1 + r := ih (loops + 1) _ _ _
              _ ≤ loops + 1 + (r + 1) := by omega

/-! ### Selection key (App.tsx, makeRecordKey) -/

/-- The selection key of a record at a positional index: meetings records
get an m-tagged three-part key, every other source gets a p-tagged
two-part key whose second part is the record id, falling back to the
index. -/
def makeRecordKey (rec : Recording) (idx : Nat) : String :=
  if rec.source = .meetings then
    "m|" ++ rec.meetingId.getD "" ++ "|"
      ++ (match rec.id with | some s => s | none => toString idx)
  else
    "p|" ++ (match rec.id with | some s => s | none => toString idx)

/-! ### Selection state and the bulk delete flow (App.tsx)

The pieces of App component state that the delete flow reads and writes.
The useSelection hook itself is not part of the repository snapshot; its
operations are modelled from the spec where needed (see toggleSelection
and clearSelection below). -/

structure UIState where
  selectedKeys : List String
  pendingDelete : List Recording
  showDeleteModal : Bool
  filteredRecordings : List Recording
deriving DecidableEq, Repr

/-- Modelled from the spec: the useSelection hook (whose source file is
missing from the snapshot) exposes toggle(key), which flips membership of
one key in the selection set, touching nothing else. -/
def toggleSelection (key : String) (st : UIState) : UIState :=
  if key ∈ st.selectedKeys then
    { st with selectedKeys := st.selectedKeys.erase key }
  else
    { st with selectedKeys := key :: st.selectedKeys }

/-- Modelled from the spec: the useSelection hook exposes clearSelection,
which empties the selection set. -/
def clearSelection (st : UIState) : UIState := { st with selectedKeys := [] }

/-- The records of the current filtered list whose selection key is in the
selection set (the toDelete computation of openDeleteModal). -/
def selectedRecords (st : UIState) : List Recording :=
  (st.filteredRecordings.enum.filter
    (fun p => st.selectedKeys.contains (makeRecordKey p.2 p.1))).map Prod.snd

/-- openDeleteModal: capture the records selected right now into
pendingDelete and open the modal; a click with nothing selected does
nothing. -/
def openDeleteModal (st : UIState) : UIState :=
  let toDelete := selectedRecords st
  if toDelete.isEmpty then st
  else { st with pendingDelete := toDelete, showDeleteModal := true }

/-- Progress record shown while a batch runs. -/
structure DeleteProgress where
  total : Nat
  done : Nat
deriving DecidableEq, Repr

/-- Accounting of one completed delete batch: the success and failure
tallies, the sequence of progress updates in order, and the records the
loop attempted (in order). -/
structure DeleteRun where
  success : Nat
  failed : Nat
  progress : List DeleteProgress
  attempted : List Recording
deriving DecidableEq, Repr

/-- Whether the i-th item of the batch succeeds.  In demo mode every item
succeeds after a delay; otherwise a phone record needs its id and every
other record needs its meetingId — the source tests the identifier with
JS truthiness (if (!rec.id) throw), so a null, undefined or empty-string
identifier throws, which the per-item catch turns into a failure — and an
issued request succeeds iff the transport says so (apiOk i is the
Response.ok of the i-th item). -/
def deleteOne (demoMode : Bool) (apiOk : Nat → Bool) (i : Nat) (rec : Recording) : Bool :=
  if demoMode then true
  else
    match rec.source with
    | .phone => if strTruthy rec.id then apiOk i else false
    | _ => if strTruthy rec.meetingId then apiOk i else false

/-- The sequential for loop of handleConfirmDelete: one item at a time, a
failure increments the failure tally and the loop continues, and the
finally block records done = i + 1 after every item. -/
def deleteLoop (demoMode : Bool) (apiOk : Nat → Bool) (total : Nat) :
    Nat → List Recording → DeleteRun
  | _, [] => ⟨0, 0, [], []⟩
  | i, rec :: rest =>
    let ok := deleteOne demoMode apiOk i rec
    let tail := deleteLoop demoMode apiOk total (i + 1) rest
    ⟨(if ok then 1 else 0) + tail.success,
     (if ok then 0 else 1) + tail.failed,
     ⟨total, i + 1⟩ :: tail.progress,
     rec :: tail.attempted⟩

/-- handleConfirmDelete: an empty pending list just closes the modal;
otherwise the captured pending list is processed sequentially, and the
epilogue clears the selection (both demo and live branches call
clearSelection) and resets the modal state. -/
def handleConfirmDelete (demoMode : Bool) (apiOk : Nat → Bool) (st : UIState) :
    UIState × Option DeleteRun :=
  let toDelete := st.pendingDelete
  if toDelete.isEmpty then ({ st with showDeleteModal := false }, none)
  else
    let run := deleteLoop demoMode apiOk toDelete.length 0 toDelete
    ({ st with selectedKeys := [], showDeleteModal := false, pendingDelete := [] },
     some run)

/-- Whether a record carries the identifier its source requires for
deletion, under the truthiness test of the source: a present but empty
string counts as missing, exactly as the JS negation does. -/
def hasRequiredId (rec : Recording) : Bool :=
  match rec.source with
  | .phone => strTruthy rec.id
  | _ => strTruthy rec.meetingId

theorem deleteOne_eq_requiredId (apiOk : Nat → Bool) (i : Nat) (rec : Recording) :
    deleteOne false apiOk i rec = (hasRequiredId rec && apiOk i) := by
  simp only [deleteOne, hasRequiredId, if_false, Bool.false_eq_true]
  cases rec with
  | mk src id mid =>
      cases src
      · cases h : strTruthy id <;> simp [h]
      · cases h : strTruthy mid <;> simp [h]
      · cases h : strTruthy mid <;> simp [h]

theorem deleteLoop_attempted (demoMode : Bool) (apiOk : Nat → Bool) (total : Nat) :
    ∀ (i : Nat) (recs : List Recording),
      (deleteLoop demoMode apiOk total i recs).attempted = recs := by
  intro i recs
  induction recs generalizing i with
  | nil => rfl
  | cons rec rest ih => simp [deleteLoop, ih]

theorem deleteLoop_counts (demoMode : Bool) (apiOk : Nat → Bool) (total : Nat) :
    ∀ (i : Nat) (recs : List Recording),
      (deleteLoop demoMode apiOk total i recs).success
        + (deleteLoop demoMode apiOk total i recs).failed = recs.length := by
  intro i recs
  induction recs generalizing i with
  | nil => rfl
  | cons rec rest ih =>
      simp only [deleteLoop, List.length_cons]
      have := ih (i + 1)
      cases deleteOne demoMode apiOk i rec <;> simp <;> omega

theorem deleteLoop_progress (demoMode : Bool) (apiOk : Nat → Bool) (total : Nat) :
    ∀ (i : Nat) (recs : List Recording),
      (deleteLoop demoMode apiOk total i recs).progress
        = (List.range recs.length).map (fun j => ⟨total, i + j + 1⟩) := by
  intro i recs
  induction recs generalizing i with
  | nil => rfl
  | cons rec rest ih =>
      simp only [deleteLoop, List.length_cons, List.range_succ_eq_map,
        List.map_cons, List.map_map]
      refine congrArg₂ _ (by simp) ?_
      rw [ih (i + 1)]
      apply List.map_congr_left
      intro j _
      simp only [Function.comp_apply, DeleteProgress.mk.injEq, true_and]
      omega

theorem deleteLoop_failed (apiOk : Nat → Bool) (total : Nat) :
    ∀ (i : Nat) (recs : List Recording),
      (deleteLoop false apiOk total i recs).failed
        = (recs.enumFrom i).countP (fun p => !(hasRequiredId p.2 && apiOk p.1)) := by
  intro i recs
  induction recs generalizing i with
  | nil => rfl
  | cons rec rest ih =>
      simp only [deleteLoop, List.enumFrom_cons, List.countP_cons,
        deleteOne_eq_requiredId]
      rw [ih (i + 1)]
      cases hp : hasRequiredId rec && apiOk i
      · simp [hp]
        omega
      · simp [hp]

/-! ### Shared helper lemmas for the claim theorems -/

theorem summaryEntryOf_isSome (u : User) (r : UserFetchResult) :
    (summaryEntryOf u r).isSome = userSucceeds r := by
  cases r with
  | thrown msg => rfl
  | resp status text parsed =>
      simp only [summaryEntryOf, processUser, userSucceeds]
      cases h : statusOk status <;> cases parsed <;> simp

theorem length_filterMap_eq_countP {α β : Type} (f : α → Option β) (l : List α) :
    (l.filterMap f).length = l.countP (fun a => (f a).isSome) := by
  induction l with
  | nil => rfl
  | cons a t ih =>
      simp only [List.filterMap_cons, List.countP_cons]
      cases h : f a <;> simp [h, ih]

theorem runWorkers_outcome_count (users : List User) (f : User → UserFetchResult) :
    (runWorkers users f).summary.length + (runWorkers users f).errors.length
      = users.length := by
  induction users with
  | nil => rfl
  | cons u rest ih =>
      simp only [runWorkers, List.length_cons]
      cases h : processUser u (f u) <;> simp only [List.length_cons] <;> omega

theorem toggleSelection_pendingDelete (key : String) (st : UIState) :
    (toggleSelection key st).pendingDelete = st.pendingDelete := by
  simp only [toggleSelection]
  split <;> rfl

theorem foldl_toggles_pendingDelete (toggles : List String) (st : UIState) :
    (toggles.foldl (fun s k => toggleSelection k s) st).pendingDelete
      = st.pendingDelete := by
  induction toggles generalizing st with
  | nil => rfl
  | cons k rest ih =>
      simp only [List.foldl_cons]
      rw [ih, toggleSelection_pendingDelete]

theorem enumUsersGo_stop_terminates (up : Nat → UsersPage) :
    ∀ (fuel i : Nat) (acc : List User),
      (statusOk (up (i + fuel)).status = false
        ∨ ((up (i + fuel)).next_page_token.getD "" = "")) →
      enumUsersGo up (fuel + 1) i acc ≠ none := by
  intro fuel
  induction fuel with
  | zero =>
      intro i acc h
      simp only [Nat.add_zero] at h
      simp only [enumUsersGo]
      by_cases hok : statusOk (up i).status = true
      · rw [if_pos hok]
        rcases h with h | h
        · rw [hok] at h; cases h
        · rw [if_neg (by simpa using h)]
          simp
      · rw [if_neg hok]
        simp
  | succ f ih =>
      intro i acc h
      simp only [enumUsersGo]
      by_cases hok : statusOk (up i).status = true
      · rw [if_pos hok]
        by_cases htok : ((up i).next_page_token.getD "") = ""
        · rw [if_neg (by simpa using htok)]
          simp
        · rw [if_pos (by simpa using htok)]
          have h' : statusOk (up ((i + 1) + f)).status = false
              ∨ ((up ((i + 1) + f)).next_page_token.getD "" = "") := by
            have hplus : (i + 1) + f = i + (f + 1) := by omega
            rw [hplus]; exact h
          exact ih (i + 1) _ h'
      · rw [if_neg hok]
        simp

/-! ## Claim theorems -/

/-- C1: for every fan-out batch over the N enumerated users in the
meetings handler, each user contributes exactly one recorded outcome: a
per-user summary entry exactly when its fetch succeeds, an error entry
exactly when it fails, never neither and never both, so the number of
recorded outcomes equals N and the success count plus the error count is
N — no user is silently dropped. -/
theorem c1_fanout_one_outcome_per_user (users : List User)
    (f : User → UserFetchResult) :
    (runWorkers users f).summary.length + (runWorkers users f).errors.length
        = users.length ∧
    (runWorkers users f).summary
        = users.filterMap (fun u => summaryEntryOf u (f u)) ∧
    (runWorkers users f).errors
        = users.filterMap (fun u => errEntryOf u (f u)) ∧
    (∀ (u : User) (r : UserFetchResult),
      (summaryEntryOf u r).isSome = userSucceeds r ∧
      (errEntryOf u r).isSome = !userSucceeds r) := by
  refine ⟨runWorkers_outcome_count users f, runWorkers_summary users f,
    runWorkers_errors users f, ?_⟩
  intro u r
  exact ⟨summaryEntryOf_isSome u r, errEntryOf_isSome u r⟩

/-- C2: when some per-user recording fetches fail (non-2xx or malformed
body) while at least one user succeeds, the meetings handler still
responds with HTTP 200; total_records equals the post-filter count of the
successful users meetings, the auxiliary error list carries exactly one
entry per failing user with that user id and email, and the presence of
errors does not change the 200 status. -/
theorem c2_partial_failure_is_not_fatal (p : MeetingsParams)
    (up : MeetingsUpstream) (fuel : Nat) (users : List User)
    (hEnum : enumUsers up.usersPage fuel = some (.ok users))
    (hne : users ≠ [])
    (hd1 : p.debug ≠ "users") (hd2 : p.debug ≠ "user-recordings")
    (_hmix : ∃ u ∈ users, userSucceeds (up.recFetch u) = true) :
    ∃ (meetings : List NormMeeting) (errs : List ErrEntry),
      meetings = applyFilters (jsToLower p.owner_email) (jsToLower p.topic)
          (jsToLower p.q) ((users.map (okRecsOf up.recFetch)).flatten) ∧
      errs = users.filterMap (fun u => errEntryOf u (up.recFetch u)) ∧
      handleGetMeetingRecordings p up fuel
        = some ⟨⟨200, .searchResult p.fromP p.toP ""
            (if meetings.length = 0 then 0 else 1) meetings.length
            meetings.length meetings
            (if errs.isEmpty then none else some errs)⟩, users⟩ ∧
      (∀ e ∈ errs, ∃ u ∈ users, userSucceeds (up.recFetch u) = false
        ∧ e.userId = u.id ∧ e.userEmail = u.email) ∧
      errs.length = users.countP (fun u => !userSucceeds (up.recFetch u)) := by
  refine ⟨_, _, rfl, rfl, ?_, ?_, ?_⟩
  · have hlen : users.length ≠ 0 := by
      intro h
      exact hne (List.length_eq_zero.mp h)
    simp only [handleGetMeetingRecordings, hEnum]
    simp only [hd1, hd2, hlen, if_false, if_neg hlen]
    rw [runWorkers_meetings, runWorkers_errors]
  · intro e he
    rcases List.mem_filterMap.mp he with ⟨u, hu, hsome⟩
    refine ⟨u, hu, ?_, (errEntryOf_fields u _ e hsome).1,
      (errEntryOf_fields u _ e hsome).2⟩
    have h1 : (errEntryOf u (up.recFetch u)).isSome = true := by
      rw [hsome]; rfl
    rw [errEntryOf_isSome] at h1
    cases h2 : userSucceeds (up.recFetch u)
    · rfl
    · rw [h2] at h1; cases h1
  · rw [length_filterMap_eq_countP]
    apply List.countP_congr
    intro u _
    rw [errEntryOf_isSome]

/-- Concrete scenario for C2: three active users, two succeeding with one
meeting each and one answering 500. -/
def c2users : List User := [⟨"u1", "a@x.com"⟩, ⟨"u2", "b@x.com"⟩, ⟨"u3", "c@x.com"⟩]

def c2upstream : MeetingsUpstream :=
  { usersPage := fun _ => ⟨200, "", some c2users, none⟩
    recFetch := fun u =>
      if u.id = "u3" then .resp 500 "boom" none
      else .resp 200 "body"
        (some ⟨some [⟨some "Weekly sync", some "h1", some "uu", none, some 30, none⟩]⟩) }

def c2params : MeetingsParams := ⟨"2024-01-01", "2024-01-07", "", "", "", ""⟩

theorem c2_partial_failure_is_not_fatal_witness :
    enumUsers c2upstream.usersPage 1 = some (.ok c2users) ∧
    c2users ≠ [] ∧
    c2params.debug ≠ "users" ∧
    c2params.debug ≠ "user-recordings" ∧
    (∃ u ∈ c2users, userSucceeds (c2upstream.recFetch u) = true) ∧
    (∃ (meetings : List NormMeeting) (errs : List ErrEntry),
      meetings = applyFilters (jsToLower c2params.owner_email)
          (jsToLower c2params.topic) (jsToLower c2params.q)
          ((c2users.map (okRecsOf c2upstream.recFetch)).flatten) ∧
      errs = c2users.filterMap (fun u => errEntryOf u (c2upstream.recFetch u)) ∧
      handleGetMeetingRecordings c2params c2upstream 1
        = some ⟨⟨200, .searchResult c2params.fromP c2params.toP ""
            (if meetings.length = 0 then 0 else 1) meetings.length
            meetings.length meetings
            (if errs.isEmpty then none else some errs)⟩, c2users⟩ ∧
      (∀ e ∈ errs, ∃ u ∈ c2users, userSucceeds (c2upstream.recFetch u) = false
        ∧ e.userId = u.id ∧ e.userEmail = u.email) ∧
      errs.length = c2users.countP (fun u => !userSucceeds (c2upstream.recFetch u))) :=
  ⟨by decide, by decide, by decide, by decide, by decide,
   c2_partial_failure_is_not_fatal c2params c2upstream 1 c2users (by decide)
     (by decide) (by decide) (by decide) (by decide)⟩

/-- Upstream behaviour for C3 in which every page, including the 20th,
still carries a continuation token: the fetch is cut off by the cap with
data provably missing. -/
def c3upTokenAlways : Nat → Except String (ApiPage PhoneRec) :=
  fun _ => .ok ⟨some [], some "t", none, none⟩

/-- Upstream behaviour for C3 in which the 20th page is genuinely the last
one (empty token there): the data is complete. -/
def c3upTokenUntil19 : Nat → Except String (ApiPage PhoneRec) :=
  fun n => .ok ⟨some [], if n < 19 then some "t" else none, none, none⟩

/-- C3, counterexample to the claim as stated: the phone fetch result
carries no incompleteness flag of any kind.  A run that hits the 20-page
cap with a continuation token still pending returns a value that is equal
to the value returned by a run whose upstream data is genuinely complete
after 20 pages, so no field of the returned result — which consists only
of the echoed range and the accumulated recordings — can flag the data as
possibly incomplete, and in particular no terminatedEarly flag is
returned. -/
theorem c3_counterexample_no_incompleteness_flag :
    (fetchAllPhoneRecordingsRun c3upTokenAlways "2024-01-01" "2024-01-07").requests
        = 20 ∧
    (fetchAllPhoneRecordingsRun c3upTokenAlways "2024-01-01"
        "2024-01-07").cappedWithToken = true ∧
    (fetchAllPhoneRecordingsRun c3upTokenUntil19 "2024-01-01"
        "2024-01-07").cappedWithToken = false ∧
    fetchAllPhoneRecordings c3upTokenAlways "2024-01-01" "2024-01-07"
      = fetchAllPhoneRecordings c3upTokenUntil19 "2024-01-01" "2024-01-07" := by
  decide

/-- C3, amended: for every upstream behaviour, the phone pagination loop
issues at most 20 page requests and the contact-center loop at most 50;
when the cap is reached while a continuation token is still present the
loop simply stops, and the returned result carries no incompleteness
indicator (see the counterexample theorem for the latter point). -/
theorem c3_page_requests_capped (upP : Nat → Except String (ApiPage PhoneRec))
    (upC : Nat → Except String (ApiPage CCRec)) (f1 t1 f2 t2 : String) :
    (fetchAllPhoneRecordingsRun upP f1 t1).requests ≤ MAX_PHONE_PAGES ∧
    (fetchAllContactCenterRecordingsRun upC f2 t2).requests ≤ MAX_CC_PAGES := by
  constructor
  · have h := pagGo_requests_le upP phoneNorm f1 t1 (MAX_PHONE_PAGES - 1) 0 [] none none
    calc (fetchAllPhoneRecordingsRun upP f1 t1).requests
        ≤ 0 + 1 + (MAX_PHONE_PAGES - 1) := h
      _ ≤ MAX_PHONE_PAGES := by norm_num [MAX_PHONE_PAGES]
  · have h := pagGo_requests_le upC ccNorm f2 t2 (MAX_CC_PAGES - 1) 0 [] none none
    calc (fetchAllContactCenterRecordingsRun upC f2 t2).requests
        ≤ 0 + 1 + (MAX_CC_PAGES - 1) := h
      _ ≤ MAX_CC_PAGES := by norm_num [MAX_CC_PAGES]

/-- C4: a confirmed bulk delete over a captured pending list of n records
runs every item: the final progress update reports done = n, one progress
update is recorded per item, successes plus failures equal n, exactly the
items that lack their required identifier or whose delete request fails
are counted as failures (none is skipped and none aborts the batch), and
the selection is cleared afterwards. -/
theorem c4_bulk_delete_accounting (apiOk : Nat → Bool) (st : UIState)
    (hne : st.pendingDelete ≠ []) :
    ∃ run, (handleConfirmDelete false apiOk st).2 = some run ∧
      run.success + run.failed = st.pendingDelete.length ∧
      run.progress = (List.range st.pendingDelete.length).map
          (fun j => ⟨st.pendingDelete.length, j + 1⟩) ∧
      run.progress.getLast?
          = some ⟨st.pendingDelete.length, st.pendingDelete.length⟩ ∧
      run.failed = (st.pendingDelete.enumFrom 0).countP
          (fun q => !(hasRequiredId q.2 && apiOk q.1)) ∧
      run.attempted = st.pendingDelete ∧
      (handleConfirmDelete false apiOk st).1.selectedKeys = [] := by
  have hemp : st.pendingDelete.isEmpty = false := by
    cases hpd : st.pendingDelete
    · exact absurd hpd hne
    · rfl
  refine ⟨deleteLoop false apiOk st.pendingDelete.length 0 st.pendingDelete,
    ?_, ?_, ?_, ?_, ?_, ?_, ?_⟩
  · simp [handleConfirmDelete, hemp]
  · exact deleteLoop_counts false apiOk _ 0 st.pendingDelete
  · have h := deleteLoop_progress false apiOk st.pendingDelete.length 0 st.pendingDelete
    rw [h]
    apply List.map_congr_left
    intro j _
    simp
  · rw [deleteLoop_progress]
    rw [List.getLast?_map, List.getLast?_range]
    have hn : st.pendingDelete.length ≠ 0 := by
      intro h
      exact hne (List.length_eq_zero.mp h)
    rw [if_neg hn]
    have h2 : st.pendingDelete.length - 1 + 1 = st.pendingDelete.length := by omega
    simp [h2]
  · exact deleteLoop_failed apiOk _ 0 st.pendingDelete
  · exact deleteLoop_attempted false apiOk _ 0 st.pendingDelete
  · simp [handleConfirmDelete, hemp]

/-- Concrete scenario for C4: five phone records, the third lacking its
recording id, with a transport that accepts every issued delete. -/
def c4records : List Recording :=
  [⟨.phone, some "r1", none⟩, ⟨.phone, some "r2", none⟩, ⟨.phone, none, none⟩,
   ⟨.phone, some "r4", none⟩, ⟨.phone, some "r5", none⟩]

def c4state : UIState := ⟨["p|r1"], c4records, true, c4records⟩

theorem c4_bulk_delete_accounting_witness :
    c4state.pendingDelete ≠ [] ∧
    (∃ run, (handleConfirmDelete false (fun _ => true) c4state).2 = some run ∧
      run.success + run.failed = c4state.pendingDelete.length ∧
      run.progress = (List.range c4state.pendingDelete.length).map
          (fun j => ⟨c4state.pendingDelete.length, j + 1⟩) ∧
      run.progress.getLast?
          = some ⟨c4state.pendingDelete.length, c4state.pendingDelete.length⟩ ∧
      run.failed = (c4state.pendingDelete.enumFrom 0).countP
          (fun q => !(hasRequiredId q.2 && (fun (_ : Nat) => true) q.1)) ∧
      run.attempted = c4state.pendingDelete ∧
      (handleConfirmDelete false (fun _ => true) c4state).1.selectedKeys = []) :=
  ⟨by decide, c4_bulk_delete_accounting (fun _ => true) c4state (by decide)⟩

/-- C5: the records iterated by a confirmed bulk delete are exactly the
snapshot of selected records captured when the confirmation modal was
opened; toggling the live selection any number of times between opening
the modal and confirming has no effect on which records the batch
attempts. -/
theorem c5_confirm_uses_open_time_snapshot (st : UIState) (toggles : List String)
    (demoMode : Bool) (apiOk : Nat → Bool)
    (hsel : selectedRecords st ≠ []) :
    (toggles.foldl (fun s k => toggleSelection k s) (openDeleteModal st)).pendingDelete
        = selectedRecords st ∧
    ∃ run, (handleConfirmDelete demoMode apiOk
        (toggles.foldl (fun s k => toggleSelection k s) (openDeleteModal st))).2
          = some run ∧
      run.attempted = selectedRecords st := by
  have hemp : (selectedRecords st).isEmpty = false := by
    cases hpd : selectedRecords st
    · exact absurd hpd hsel
    · rfl
  have hopen : (openDeleteModal st).pendingDelete = selectedRecords st := by
    simp [openDeleteModal, hemp]
  have hpending : (toggles.foldl (fun s k => toggleSelection k s)
      (openDeleteModal st)).pendingDelete = selectedRecords st := by
    rw [foldl_toggles_pendingDelete, hopen]
  refine ⟨hpending, deleteLoop demoMode apiOk (selectedRecords st).length 0
    (selectedRecords st), ?_, ?_⟩
  · simp only [handleConfirmDelete, hpending, hemp]
    simp
  · exact deleteLoop_attempted demoMode apiOk _ 0 (selectedRecords st)

/-- Concrete scenario for C5: one phone record, selected under its key,
with the selection toggled twice after the modal opened. -/
def c5record : Recording := ⟨.phone, some "X", none⟩

def c5state : UIState := ⟨[makeRecordKey c5record 0], [], false, [c5record]⟩

theorem c5_confirm_uses_open_time_snapshot_witness :
    selectedRecords c5state ≠ [] ∧
    ((["p|X", "p|Y"].foldl (fun s k => toggleSelection k s)
        (openDeleteModal c5state)).pendingDelete = selectedRecords c5state ∧
    ∃ run, (handleConfirmDelete false (fun _ => true)
        (["p|X", "p|Y"].foldl (fun s k => toggleSelection k s)
          (openDeleteModal c5state))).2 = some run ∧
      run.attempted = selectedRecords c5state) :=
  ⟨by decide, c5_confirm_uses_open_time_snapshot c5state ["p|X", "p|Y"] false
    (fun _ => true) (by decide)⟩

/-- C6: the three optional substring filters of the meetings handler are
ANDed — a record is in the final set iff it is in the input and passes
each supplied filter individually — and running the three passes in any
permutation of the source order produces the same final list. -/
theorem c6_filter_chain_is_order_independent_and (of tf q : String)
    (ms : List NormMeeting) (order : List FilterKind)
    (hperm : order.Perm [.owner, .topic, .qtext]) :
    applyFiltersIn of tf q order ms = applyFilters of tf q ms ∧
    ∀ m, m ∈ applyFilters of tf q ms ↔ m ∈ ms ∧
      (of ≠ "" → ownerPred of m = true) ∧
      (tf ≠ "" → topicPred tf m = true) ∧
      (q ≠ "" → qPred q m = true) := by
  constructor
  · rw [applyFilters_eq_canonical, applyFiltersIn_eq_filter_all,
      applyFiltersIn_eq_filter_all]
    apply List.filter_congr
    intro m _
    exact perm_all_eq hperm _
  · intro m
    rw [applyFilters_eq_canonical, applyFiltersIn_eq_filter_all, List.mem_filter]
    have key : ∀ (b : Bool) (c : Prop) (inst : Decidable c),
        ((if c then b else true) = true ↔ (c → b = true)) := by
      intro b c inst
      by_cases h : c <;> simp [h]
    simp only [List.all_cons, List.all_nil, Bool.and_true, Bool.and_eq_true,
      condPred]
    rw [key, key, key]

def c6meeting : NormMeeting :=
  ⟨some "Weekly sync", some "host9", none, none, none, some "bob@x.com",
    none, none, []⟩

theorem c6_filter_chain_is_order_independent_and_witness :
    ([FilterKind.qtext, FilterKind.owner, FilterKind.topic].Perm
        [.owner, .topic, .qtext]) ∧
    (applyFiltersIn "bob" "sync" "host" [.qtext, .owner, .topic] [c6meeting]
        = applyFilters "bob" "sync" "host" [c6meeting] ∧
    ∀ m, m ∈ applyFilters "bob" "sync" "host" [c6meeting] ↔ m ∈ [c6meeting] ∧
      (("bob" : String) ≠ "" → ownerPred "bob" m = true) ∧
      (("sync" : String) ≠ "" → topicPred "sync" m = true) ∧
      (("host" : String) ≠ "" → qPred "host" m = true)) :=
  ⟨by decide, c6_filter_chain_is_order_independent_and "bob" "sync" "host"
    [c6meeting] [.qtext, .owner, .topic] (by decide)⟩

/-- The two meetings of the Scenario D free-text example: the first has
topic Onboarding Call and owner bob@x.com, the second topic Standup and
owner onboard-bot@x.com. -/
def c7meeting1 : NormMeeting :=
  ⟨some "Onboarding Call", some "h1", none, none, none, some "bob@x.com",
    none, none, []⟩

def c7meeting2 : NormMeeting :=
  ⟨some "Standup", some "h2", none, none, none, some "onboard-bot@x.com",
    none, none, []⟩

/-- C7, counterexample to the claim as stated: the claim (like Scenario D
of the spec) asserts that for q = onboarding the Standup meeting owned by
onboard-bot@x.com also matches, but the string onboarding is not a
substring of the lower-cased haystack standup onboard-bot@x.com h2 — the
haystack contains onboard but the following character is a hyphen, not an
i — so the free-text filter drops that meeting and keeps only the
Onboarding Call one. -/
theorem c7_counterexample_second_example_does_not_match :
    jsToLower "onboarding" = "onboarding" ∧
    qPred "onboarding" c7meeting1 = true ∧
    qPred "onboarding" c7meeting2 = false ∧
    applyFilters "" "" "onboarding" [c7meeting1, c7meeting2] = [c7meeting1] := by
  decide

/-- C7, amended: a meeting record matches the free-text filter q iff the
lower-cased space-joined concatenation of its topic, owner email and host
identifier contains the lower-cased q as a substring; for q = onboarding
the Onboarding Call meeting matches, while the Standup meeting owned by
onboard-bot@x.com does not (its haystack contains onboard, and it would
match the query onboard, but not onboarding). -/
theorem c7_qfilter_matches_iff_haystack_contains (ms : List NormMeeting)
    (m : NormMeeting) (q : String) (hq : q ≠ "") :
    (m ∈ applyFilters "" "" q ms
        ↔ m ∈ ms ∧ jsIncludes (jsToLower (qBag m)) q = true) ∧
    qPred "onboarding" c7meeting1 = true ∧
    qPred "onboard" c7meeting2 = true ∧
    qPred "onboarding" c7meeting2 = false := by
  refine ⟨?_, by decide, by decide, by decide⟩
  have hchain : applyFilters "" "" q ms = ms.filter (qPred q) := by
    simp [applyFilters, hq]
  rw [hchain, List.mem_filter]
  exact Iff.rfl

theorem c7_qfilter_matches_iff_haystack_contains_witness :
    ("onboarding" : String) ≠ "" ∧
    ((c7meeting1 ∈ applyFilters "" "" "onboarding" [c7meeting1, c7meeting2]
        ↔ c7meeting1 ∈ [c7meeting1, c7meeting2]
            ∧ jsIncludes (jsToLower (qBag c7meeting1)) "onboarding" = true) ∧
    qPred "onboarding" c7meeting1 = true ∧
    qPred "onboard" c7meeting2 = true ∧
    qPred "onboarding" c7meeting2 = false) :=
  ⟨by decide, c7_qfilter_matches_iff_haystack_contains [c7meeting1, c7meeting2]
    c7meeting1 "onboarding" (by decide)⟩

def c8phoneRec : Recording := ⟨.phone, some "X", none⟩

def c8ccRec : Recording := ⟨.cc, some "X", none⟩

def c8meetingRec : Recording := ⟨.meetings, some "X", some "M"⟩

/-- C8, counterexample to the claim as stated: makeRecordKey prefixes the
m tag only for meetings records and uses the p tag for every other
source, so a phone record and a contact-center record with the same
recording id map to the same selection key even though their sources
differ. -/
theorem c8_counterexample_phone_cc_keys_collide :
    c8phoneRec.source ≠ c8ccRec.source ∧
    makeRecordKey c8phoneRec 0 = makeRecordKey c8ccRec 7 := by
  decide

/-- C8, amended: the selection key combines a meetings-versus-other tag
with the most specific available identifier (meeting UUID, recording id,
or positional index as last resort), so a meetings record and a record of
any other source never map to the same selection key; records of the two
non-meetings sources (phone and contact center) share the p tag and can
collide when they carry equal recording ids (see the counterexample
theorem). -/
theorem c8_meetings_keys_disjoint_from_others (r1 r2 : Recording) (i1 i2 : Nat)
    (h1 : r1.source = .meetings) (h2 : r2.source ≠ .meetings) :
    makeRecordKey r1 i1 ≠ makeRecordKey r2 i2 := by
  intro heq
  simp only [makeRecordKey, if_pos h1, if_neg h2] at heq
  have hd := congrArg String.data heq
  simp only [String.data_append] at hd
  simp at hd

theorem c8_meetings_keys_disjoint_from_others_witness :
    c8meetingRec.source = RecSource.meetings ∧
    c8phoneRec.source ≠ RecSource.meetings ∧
    makeRecordKey c8meetingRec 0 ≠ makeRecordKey c8phoneRec 0 :=
  ⟨rfl, by decide,
    c8_meetings_keys_disjoint_from_others c8meetingRec c8phoneRec 0 0 rfl
      (by decide)⟩

/-- An upstream users listing that answers every page with status 200 and
a non-empty continuation token. -/
def c9tokenForever : Nat → UsersPage := fun _ => ⟨200, "", some [], some "t"⟩

/-- The user-enumeration loop of the meetings handler makes no progress
towards an answer against the given upstream, whatever page budget it is
given. -/
def usersEnumNeverTerminates (up : Nat → UsersPage) : Prop :=
  ∀ fuel, enumUsers up fuel = none

/-- C9, counterexample to the claim as stated: the active-user enumeration
loop of the meetings handler has no page-count ceiling — against an
upstream that always returns a non-empty next_page_token the loop never
terminates, for any number of allowed pages, so it is not the case that
every cursor loop in the system terminates on empty token or on a
ceiling. -/
theorem c9_counterexample_users_loop_has_no_cap :
    usersEnumNeverTerminates c9tokenForever := by
  intro fuel
  suffices h : ∀ (f i : Nat) (acc : List User),
      enumUsersGo c9tokenForever f i acc = none from h fuel 0 []
  intro f
  induction f with
  | zero => intro i acc; rfl
  | succ g ih =>
      intro i acc
      simp only [enumUsersGo, c9tokenForever]
      rw [if_pos (by decide), if_pos (by decide)]
      exact ih (i + 1) _

/-- C9, amended: the phone pagination loop always terminates, within its
20-page cap, and the user-enumeration loop terminates exactly on upstream
exhaustion — whenever some page answers with a non-2xx status or an empty
continuation token, a budget of that many pages suffices — but it has no
page-count ceiling of its own (see the counterexample theorem). -/
theorem c9_phone_capped_users_terminate_on_empty_token
    (upP : Nat → Except String (ApiPage PhoneRec)) (f1 t1 : String)
    (upU : Nat → UsersPage) (k : Nat)
    (hstop : statusOk (upU k).status = false
      ∨ (upU k).next_page_token.getD "" = "") :
    (fetchAllPhoneRecordingsRun upP f1 t1).requests ≤ MAX_PHONE_PAGES ∧
    enumUsers upU (k + 1) ≠ none := by
  constructor
  · have h := pagGo_requests_le upP phoneNorm f1 t1 (MAX_PHONE_PAGES - 1) 0 [] none none
    calc (fetchAllPhoneRecordingsRun upP f1 t1).requests
        ≤ 0 + 1 + (MAX_PHONE_PAGES - 1) := h
      _ ≤ MAX_PHONE_PAGES := by norm_num [MAX_PHONE_PAGES]
  · have hstop' : statusOk (upU (0 + k)).status = false
        ∨ ((upU (0 + k)).next_page_token.getD "" = "") := by
      simpa using hstop
    exact enumUsersGo_stop_terminates upU k 0 [] hstop'

/-- A users listing whose very first page already has an empty token. -/
def c9stopPage : Nat → UsersPage := fun _ => ⟨200, "", some [], none⟩

def c9phoneUp : Nat → Except String (ApiPage PhoneRec) :=
  fun _ => .ok ⟨none, none, none, none⟩

theorem c9_phone_capped_users_terminate_on_empty_token_witness :
    (statusOk (c9stopPage 0).status = false
      ∨ (c9stopPage 0).next_page_token.getD "" = "") ∧
    ((fetchAllPhoneRecordingsRun c9phoneUp "2024-01-01" "2024-01-07").requests
        ≤ MAX_PHONE_PAGES ∧
      enumUsers c9stopPage (0 + 1) ≠ none) :=
  ⟨by decide, c9_phone_capped_users_terminate_on_empty_token c9phoneUp
    "2024-01-01" "2024-01-07" c9stopPage 0 (by decide)⟩

/-- C10: when the active-user enumeration yields zero users (and no debug
view was requested), the meetings handler responds immediately with HTTP
200 carrying total_records = 0, page_count = 0 and an empty meetings
list, with no error field, and issues no per-user recording fetch: an
empty organization is a successful empty result. -/
theorem c10_zero_users_is_successful_empty_result (p : MeetingsParams)
    (up : MeetingsUpstream) (fuel : Nat) (hdbg : p.debug ≠ "users")
    (hEnum : enumUsers up.usersPage fuel = some (.ok [])) :
    handleGetMeetingRecordings p up fuel
      = some ⟨⟨200, .searchResult p.fromP p.toP "" 0 0 0 [] none⟩, []⟩ := by
  simp [handleGetMeetingRecordings, hEnum, hdbg]

def c10upstream : MeetingsUpstream :=
  { usersPage := fun _ => ⟨200, "", some [], none⟩
    recFetch := fun _ => .thrown "never issued" }

def c10params : MeetingsParams := ⟨"2024-01-01", "2024-01-07", "", "", "", ""⟩

theorem c10_zero_users_is_successful_empty_result_witness :
    c10params.debug ≠ "users" ∧
    enumUsers c10upstream.usersPage 1 = some (.ok []) ∧
    handleGetMeetingRecordings c10params c10upstream 1
      = some ⟨⟨200, .searchResult "2024-01-01" "2024-01-07" "" 0 0 0 [] none⟩,
          []⟩ :=
  ⟨by decide, by decide,
    c10_zero_users_is_successful_empty_result c10params c10upstream 1
      (by decide) (by decide)⟩

end RecMgmt
